import Mathlib

/-!
# CIRCL passive-DNS data source (`datasrcs/circl.go`)

A shallow embedding of `CIRCL.OnDNSRequest` and `CIRCL.restURL`.

The service talks to its collaborators only through calls whose order matters
(rate limiter, event bus, HTTP fetch).  Every such call is recorded as an `Effect`,
and an invocation is a function from the collaborators' answers to the list of
effects it performs, in program order.

Go strings are modelled by Lean strings (sequences of Unicode code points), so the
payloads considered are the valid UTF-8 ones; the length of a line in bytes is the
UTF-8 length of its characters.
-/

namespace Amass

/-! ## `encoding/json`: the part used by `json.Unmarshal(line, &j)` -/

namespace json

/-- A decoded JSON text.  Number literals are kept as written. -/
inductive Value where
  | null
  | bool (b : Bool)
  | number (literal : List Char)
  | string (s : List Char)
  | array (elems : List Value)
  | object (members : List (List Char × Value))

/-- The JSON white space of Go's scanner: space, tab, carriage return, line feed. -/
def isSpace (c : Char) : Bool :=
  c = ' ' || c = '\t' || c = '\r' || c = '\n'

/-- Drop leading white space. -/
def skipSpace : List Char → List Char
  | [] => []
  | c :: cs => if isSpace c then skipSpace cs else c :: cs

/-- Decimal digit test. -/
def isDigit (c : Char) : Bool := '0'.toNat ≤ c.toNat && c.toNat ≤ '9'.toNat

/-- Value of a hexadecimal digit, as accepted after a backslash-u escape. -/
def hexDigit (c : Char) : Option Nat :=
  if '0'.toNat ≤ c.toNat ∧ c.toNat ≤ '9'.toNat then some (c.toNat - '0'.toNat)
  else if 'a'.toNat ≤ c.toNat ∧ c.toNat ≤ 'f'.toNat then some (c.toNat - 'a'.toNat + 10)
  else if 'A'.toNat ≤ c.toNat ∧ c.toNat ≤ 'F'.toNat then some (c.toNat - 'A'.toNat + 10)
  else none

/-- The four hexadecimal digits of a backslash-u escape (`getu4`). -/
def getu4 (a b c d : Char) : Option Nat :=
  match hexDigit a, hexDigit b, hexDigit c, hexDigit d with
  | some x, some y, some z, some w => some (((x * 16 + y) * 16 + z) * 16 + w)
  | _, _, _, _ => none

/-- The Unicode replacement character U+FFFD. -/
def replacementChar : Char := Char.ofNat 0xFFFD

/-- Surrogate code points, `utf16.IsSurrogate`. -/
def isSurrogate (r : Nat) : Bool := 0xD800 ≤ r && r < 0xE000

/-- Combine a surrogate pair, `utf16.DecodeRune`; `none` stands for the replacement
character returned on an invalid pair. -/
def decodeRune (r1 r2 : Nat) : Option Nat :=
  if 0xD800 ≤ r1 ∧ r1 < 0xDC00 ∧ 0xDC00 ≤ r2 ∧ r2 < 0xE000 then
    some ((r1 - 0xD800) * 0x400 + (r2 - 0xDC00) + 0x10000)
  else none

/-- The single-character escapes accepted by the scanner. -/
def simpleEscape (c : Char) : Option Char :=
  if c = '"' then some '"'
  else if c = '\\' then some '\\'
  else if c = '/' then some '/'
  else if c = 'b' then some (Char.ofNat 8)
  else if c = 'f' then some (Char.ofNat 12)
  else if c = 'n' then some '\n'
  else if c = 'r' then some '\r'
  else if c = 't' then some '\t'
  else none

/-- Read a string literal after its opening quote: the decoded characters (in
reverse in `acc`) and the rest of the input after the closing quote.  Control
characters and unknown escapes are syntax errors; an unpaired surrogate escape
decodes to U+FFFD, as in `unquote`. -/
def readString : Nat → List Char → List Char → Option (List Char × List Char)
  | 0, _, _ => none
  | _ + 1, _, [] => none
  | fuel + 1, acc, c :: cs =>
    if c = '"' then some (acc.reverse, cs)
    else if c = '\\' then
      match cs with
      | [] => none
      | e :: rest =>
        if e = 'u' then
          match rest with
          | h1 :: h2 :: h3 :: h4 :: rest4 =>
            match getu4 h1 h2 h3 h4 with
            | none => none
            | some r =>
              if isSurrogate r then
                match rest4 with
                | '\\' :: 'u' :: k1 :: k2 :: k3 :: k4 :: rest10 =>
                  match getu4 k1 k2 k3 k4 with
                  | some r2 =>
                    match decodeRune r r2 with
                    | some d => readString fuel (Char.ofNat d :: acc) rest10
                    | none => readString fuel (replacementChar :: acc) rest4
                  | none => readString fuel (replacementChar :: acc) rest4
                | _ => readString fuel (replacementChar :: acc) rest4
              else readString fuel (Char.ofNat r :: acc) rest4
          | _ => none
        else
          match simpleEscape e with
          | some d => readString fuel (d :: acc) rest
          | none => none
    else if c.toNat < 0x20 then none
    else readString fuel (c :: acc) cs

/-- The longest run of digits at the head of the input, and what follows. -/
def spanDigits : List Char → List Char × List Char
  | [] => ([], [])
  | c :: cs =>
    if isDigit c then ((spanDigits cs).1.cons c, (spanDigits cs).2) else ([], c :: cs)

/-- Read a number literal: optional minus, integer part without leading zeros,
optional fraction, optional exponent. -/
def readNumber (cs : List Char) : Option (List Char × List Char) :=
  let sign : List Char × List Char :=
    match cs with
    | '-' :: r => (['-'], r)
    | _ => ([], cs)
  let intPart : Option (List Char × List Char) :=
    match sign.2 with
    | '0' :: r => some (['0'], r)
    | c :: r => if isDigit c then some (c :: (spanDigits r).1, (spanDigits r).2) else none
    | [] => none
  match intPart with
  | none => none
  | some (ds, r1) =>
    let frac : Option (List Char × List Char) :=
      match r1 with
      | '.' :: r =>
        if (spanDigits r).1 = [] then none else some ('.' :: (spanDigits r).1, (spanDigits r).2)
      | _ => some ([], r1)
    match frac with
    | none => none
    | some (fs, r2) =>
      let expo : Option (List Char × List Char) :=
        match r2 with
        | e :: r =>
          if e = 'e' ∨ e = 'E' then
            let signed : List Char × List Char :=
              match r with
              | s :: r3 => if s = '+' ∨ s = '-' then ([s], r3) else ([], r)
              | [] => ([], r)
            if (spanDigits signed.2).1 = [] then none
            else some (e :: signed.1 ++ (spanDigits signed.2).1, (spanDigits signed.2).2)
          else some ([], r2)
        | [] => some ([], r2)
      match expo with
      | none => none
      | some (es, r3) => some (sign.1 ++ ds ++ fs ++ es, r3)

/-- Go's decoder refuses texts nested deeper than this (`maxNestingDepth`). -/
def maxNestingDepth : Nat := 10000

mutual

/-- Read one JSON value.  `depth` is the number of arrays and objects already
open; `fuel` bounds the recursion and is at least the length of the input. -/
def readValue : Nat → Nat → List Char → Option (Value × List Char)
  | 0, _, _ => none
  | fuel + 1, depth, cs =>
    match skipSpace cs with
    | [] => none
    | c :: rest =>
      if c = '\x7b' then
        if maxNestingDepth ≤ depth then none
        else
          match skipSpace rest with
          | '\x7d' :: r => some (Value.object [], r)
          | _ => readMembers fuel (depth + 1) [] rest
      else if c = '[' then
        if maxNestingDepth ≤ depth then none
        else
          match skipSpace rest with
          | ']' :: r => some (Value.array [], r)
          | _ => readElems fuel (depth + 1) [] rest
      else if c = '"' then
        match readString (rest.length + 1) [] rest with
        | some (s, r) => some (Value.string s, r)
        | none => none
      else if c = 't' then
        match rest with
        | 'r' :: 'u' :: 'e' :: r => some (Value.bool true, r)
        | _ => none
      else if c = 'f' then
        match rest with
        | 'a' :: 'l' :: 's' :: 'e' :: r => some (Value.bool false, r)
        | _ => none
      else if c = 'n' then
        match rest with
        | 'u' :: 'l' :: 'l' :: r => some (Value.null, r)
        | _ => none
      else
        match readNumber (c :: rest) with
        | some (lit, r) => some (Value.number lit, r)
        | none => none

/-- Read the members of an object after its opening brace (or after a comma)
up to and including the closing brace. -/
def readMembers : Nat → Nat → List (List Char × Value) → List Char →
    Option (Value × List Char)
  | 0, _, _, _ => none
  | fuel + 1, depth, acc, cs =>
    match skipSpace cs with
    | '"' :: r =>
      match readString (r.length + 1) [] r with
      | none => none
      | some (key, r1) =>
        match skipSpace r1 with
        | ':' :: r2 =>
          match readValue fuel depth r2 with
          | none => none
          | some (v, r3) =>
            match skipSpace r3 with
            | ',' :: r4 => readMembers fuel depth (acc ++ [(key, v)]) r4
            | '\x7d' :: r4 => some (Value.object (acc ++ [(key, v)]), r4)
            | _ => none
        | _ => none
    | _ => none

/-- Read the elements of an array after its opening bracket (or after a comma)
up to and including the closing bracket. -/
def readElems : Nat → Nat → List Value → List Char → Option (Value × List Char)
  | 0, _, _, _ => none
  | fuel + 1, depth, acc, cs =>
    match readValue fuel depth cs with
    | none => none
    | some (v, r) =>
      match skipSpace r with
      | ',' :: r1 => readElems fuel depth (acc ++ [v]) r1
      | ']' :: r1 => some (Value.array (acc ++ [v]), r1)
      | _ => none

end

/-- Syntax check and decoding of a whole text (`checkValid` followed by the
decoder): one value, surrounded by optional white space, and nothing else. -/
def decode (text : List Char) : Option Value :=
  match readValue (text.length + 1) 0 text with
  | none => none
  | some (v, rest) => if skipSpace rest = [] then some v else none

/-- Upper-case an ASCII letter, leave every other character alone. -/
def foldChar (c : Char) : Char :=
  if 'a'.toNat ≤ c.toNat ∧ c.toNat ≤ 'z'.toNat then Char.ofNat (c.toNat - 32) else c

/-- Whether an object key selects a struct field of the given JSON name: an exact
match or a match up to the case of letters.  For the name `rrname` every Go release
agrees with ASCII case folding (the only non-ASCII folds are those of K and S). -/
def equalFold (fieldName key : List Char) : Bool :=
  fieldName.map foldChar = key.map foldChar

/-- The JSON name of the only field of the target struct,
`Name string` tagged `json:"rrname"`. -/
def fieldTag : List Char := "rrname".data

/-- State of the decoder while it walks the members of an object: the current
value of `j.Name` and whether an `UnmarshalTypeError` has been saved. -/
structure Target where
  Name : List Char
  savedError : Bool

/-- Store one object member into the target struct.  A key that does not select
the field is skipped.  For the field, a string is stored, `null` leaves the field
as it is, and any other value saves a type error and leaves the field as it is. -/
def storeMember (t : Target) (m : List Char × Value) : Target :=
  if equalFold fieldTag m.1 then
    match m.2 with
    | Value.string s => { t with Name := s }
    | Value.null => t
    | _ => { t with savedError := true }
  else t

/-- Decoding of one line into `var j struct { Name string }` (tag `rrname`):
`json.Unmarshal([]byte(line), &j)`.  The result is `none` when Go returns an error,
and `some j.Name` otherwise.  The struct is fresh, so `Name` starts out empty. -/
def Unmarshal (line : String) : Option String :=
  match decode line.data with
  | none => none
  | some (Value.object members) =>
    let t := members.foldl storeMember { Name := [], savedError := false }
    if t.savedError then none else some (String.mk t.Name)
  | some Value.null => some ""
  | some _ => none

end json

/-! ## `bufio.Scanner` with the default split function `ScanLines` -/

namespace bufio

/-- The default capacity of a scanner's buffer: `MaxScanTokenSize = 64 * 1024`. -/
def MaxScanTokenSize : Nat := 64 * 1024

/-- Length in bytes of the UTF-8 encoding of a sequence of characters. -/
def byteLen (l : List Char) : Nat :=
  l.foldl (fun n c => n + c.utf8Size) 0

/-- Cut the input at every line feed.  The input after the last line feed is a
segment only when it is not empty, as `ScanLines` returns no token for it. -/
def segments : List Char → List Char → List (List Char)
  | [], [] => []
  | cur, [] => [cur.reverse]
  | cur, c :: cs => if c = '\n' then cur.reverse :: segments [] cs else segments (c :: cur) cs

/-- Remove one trailing carriage return (`dropCR`). -/
def dropCR (l : List Char) : List Char :=
  if l.getLast? = some '\r' then l.dropLast else l

/-- Whether a line can be held by the buffer.  A line is found only once its line
feed (or the end of input) has been read into the buffer next to it, which needs a
free byte: the line itself has to be shorter than `MaxScanTokenSize`. -/
def fits (l : List Char) : Bool := decide (byteLen l < MaxScanTokenSize)

/-- The tokens produced by the successive calls of `Scan`, up to the first call
that returns false.  Scanning stops at the end of the input, or, with
`ErrTooLong`, at the first line that does not fit the buffer; the lines after
it are never produced. -/
def scanTokens : List (List Char) → List String
  | [] => []
  | l :: ls => if fits l then String.mk (dropCR l) :: scanTokens ls else []

/-- The lines of a text as the loop `for scanner.Scan() { line := scanner.Text() }`
sees them. -/
def Scan (text : String) : List String := scanTokens (segments [] text.data)

/-- The lines of a text: the segments between line feeds with one trailing
carriage return removed, whatever their length. -/
def lines (text : String) : List String :=
  (segments [] text.data).map (fun l => String.mk (dropCR l))

end bufio

/-! ## The packages of the repository the service calls into -/

namespace stringset

/-- Modelled from the spec: the `stringset` package (the Dedup Set of the spec) is
not among the sources.  The spec gives it mapping-backed set semantics with
`insert(name)` and `forEach`, each distinct name being visited exactly once
regardless of insertion multiplicity.  The members are kept without repetition, in
the order of their first insertion. -/
structure Set where
  elems : List String

/-- Modelled from the spec: the empty set, `stringset.New()`. -/
def New : Set := { elems := [] }

/-- Modelled from the spec: `insert(name)`; inserting a member again changes
nothing. -/
def Set.Insert (s : Set) (v : String) : Set :=
  if v ∈ s.elems then s else { elems := s.elems ++ [v] }

end stringset

namespace regexp

/-- A compiled pattern, `*regexp.Regexp`, known through `MatchString` only. -/
structure Regexp where
  MatchString : String → Bool

end regexp

namespace config

/-- The fields of `config.APIKey` read by the service. -/
structure APIKey where
  Username : String
  Password : String

/-- The enumeration configuration, known through `DomainRegex` only: the pattern
of a domain, or `none` for the nil pattern. -/
structure Config where
  DomainRegex : String → Option regexp.Regexp

end config

namespace eventbus

/-- The priorities of `eventbus`. -/
inductive Priority where
  | PriorityLow
  | PriorityHigh
  | PriorityCritical
deriving DecidableEq

/-- The event bus found in the context; publishing on it is an effect. -/
inductive EventBus where
  | theBus
deriving DecidableEq

end eventbus

namespace requests

/-- The topics the service publishes on. -/
inductive Topic where
  | NewNameTopic
  | LogTopic
  | SetActiveTopic
deriving DecidableEq

/-- The fields of `requests.DNSRequest` the service reads or sets. -/
structure DNSRequest where
  Name : String
  Domain : String
  Tag : String
  Source : String
deriving DecidableEq

/-- The part of `requests.BaseService` the service relies on: the name given to
`NewBaseService`, which `String()` returns. -/
structure BaseService where
  name : String
deriving DecidableEq

/-- The name of the service, `BaseService.String()`. -/
def BaseService.String (s : BaseService) : String := s.name

end requests

namespace http

/-- The arguments of one call of `http.RequestWebPage(url, body, headers, uname,
passwd)`; `body` is `none` for a nil reader. -/
structure Call where
  url : String
  body : Option String
  headers : List (String × String)
  uname : String
  passwd : String
deriving DecidableEq

end http

open requests eventbus

/-- What is published on the bus: a string, or a pointer to a `DNSRequest`. -/
inductive Payload where
  | text (s : String)
  | request (r : DNSRequest)
deriving DecidableEq

/-- The calls an invocation makes to its collaborators. -/
inductive Effect where
  | CheckRateLimit
  | Publish (topic : Topic) (priority : Priority) (payload : Payload)
  | RequestWebPage (call : http.Call)
deriving DecidableEq

/-- A value looked up in a `context.Context`: nothing stored under the key (a nil
interface), or a pointer, which may itself be nil. -/
inductive CtxValue (α : Type) where
  | absent
  | pointer (p : Option α)

/-- The two values the service reads from its context. -/
structure Context where
  ContextConfig : CtxValue config.Config
  ContextEventBus : CtxValue EventBus

/-- The answers of the collaborators that an invocation depends on: the result of
the fetch (the page, or the error), and the order in which `range` walks the
members of the set, which Go leaves unspecified. -/
structure World where
  RequestWebPage : http.Call → Except String String
  mapRange : List String → List String
  mapRange_perm : ∀ l, (mapRange l).Perm l

/-- What an invocation did: its effects in program order, and whether it ended in
a run-time panic (a type assertion on a nil interface) instead of returning. -/
structure Outcome where
  effects : List Effect
  panicked : Bool
deriving DecidableEq

/-- The CIRCL service. -/
structure CIRCL extends BaseService where
  API : Option config.APIKey
  SourceType : String

/-- The URL queried for a domain. -/
def CIRCL.restURL (_c : CIRCL) (domain : String) : String :=
  "https://www.circl.lu/pdns/query/" ++ domain

/-- The loop over the lines of the page: every non-empty line that decodes and
whose name matches the pattern has its name inserted into `unique`. -/
def CIRCL.scanLoop (re : regexp.Regexp) : List String → stringset.Set → stringset.Set
  | [], unique => unique
  | line :: rest, unique =>
    if line = "" then CIRCL.scanLoop re rest unique
    else
      match json.Unmarshal line with
      | none => CIRCL.scanLoop re rest unique
      | some name =>
        if re.MatchString name then CIRCL.scanLoop re rest (unique.Insert name)
        else CIRCL.scanLoop re rest unique

/-- The event published for a name found. -/
def CIRCL.newNameEvent (c : CIRCL) (req : DNSRequest) (name : String) : Effect :=
  Effect.Publish Topic.NewNameTopic Priority.PriorityHigh
    (Payload.request { Name := name, Domain := req.Domain, Tag := c.SourceType,
                       Source := c.String })

/-- The fetch made for a domain with the given key. -/
def CIRCL.call (c : CIRCL) (api : config.APIKey) (domain : String) : http.Call :=
  { url := c.restURL domain, body := none,
    headers := [("Content-Type", "application/json")],
    uname := api.Username, passwd := api.Password }

/-- The handler of a DNS request, `CIRCL.OnDNSRequest`. -/
def CIRCL.OnDNSRequest (c : CIRCL) (w : World) (ctx : Context) (req : DNSRequest) :
    Outcome :=
  match c.API with
  | none => { effects := [], panicked := false }
  | some api =>
    if api.Username = "" ∨ api.Password = "" then { effects := [], panicked := false }
    else
      match ctx.ContextConfig with
      | CtxValue.absent => { effects := [], panicked := true }
      | CtxValue.pointer cfg =>
        match ctx.ContextEventBus with
        | CtxValue.absent => { effects := [], panicked := true }
        | CtxValue.pointer bus =>
          match cfg, bus with
          | some cfg, some _ =>
            match cfg.DomainRegex req.Domain with
            | none => { effects := [], panicked := false }
            | some re =>
              let before : List Effect :=
                [ Effect.CheckRateLimit,
                  Effect.Publish Topic.SetActiveTopic Priority.PriorityCritical
                    (Payload.text c.String),
                  Effect.Publish Topic.LogTopic Priority.PriorityHigh
                    (Payload.text
                      ("Querying " ++ c.String ++ " for " ++ req.Domain ++ " subdomains")),
                  Effect.RequestWebPage (c.call api req.Domain) ]
              match w.RequestWebPage (c.call api req.Domain) with
              | Except.error err =>
                { effects := before ++
                    [ Effect.Publish Topic.LogTopic Priority.PriorityHigh
                        (Payload.text
                          (c.String ++ ": " ++ c.restURL req.Domain ++ ": " ++ err)) ],
                  panicked := false }
              | Except.ok page =>
                { effects := before ++
                    [ Effect.Publish Topic.SetActiveTopic Priority.PriorityCritical
                        (Payload.text c.String) ] ++
                    (w.mapRange
                      (CIRCL.scanLoop re (bufio.Scan page) stringset.New).elems).map
                      (c.newNameEvent req),
                  panicked := false }
          | _, _ => { effects := [], panicked := false }

/-! ## Observations on the effects of an invocation -/

/-- The signals published on the bus, in order. -/
def signals : List Effect → List (Topic × Priority × Payload)
  | [] => []
  | Effect.Publish t p x :: es => (t, p, x) :: signals es
  | _ :: es => signals es

/-- The fetches made, in order. -/
def fetches : List Effect → List http.Call
  | [] => []
  | Effect.RequestWebPage call :: es => call :: fetches es
  | _ :: es => fetches es

/-- Whether an effect is a signal on the given topic. -/
def onTopic (t : Topic) : Effect → Bool
  | Effect.Publish t1 _ _ => decide (t1 = t)
  | _ => false

/-- The names carried by the events published on `NewNameTopic`, in order. -/
def newNames : List Effect → List String
  | [] => []
  | Effect.Publish Topic.NewNameTopic _ (Payload.request r) :: es => r.Name :: newNames es
  | _ :: es => newNames es

/-- The names that `json.Unmarshal` decodes from the lines of a payload (for each
line it decodes without error, the value it leaves in `j.Name`) and that match
the pattern, each listed once. -/
def matchingNames (re : regexp.Regexp) (page : String) : List String :=
  (((bufio.lines page).filterMap json.Unmarshal).filter re.MatchString).dedup

/-- A line that is a well-formed JSON object none of whose keys selects the field
`rrname` (no key equal to `rrname` up to the case of letters). -/
def lacksName (line : String) : Prop :=
  ∃ members, json.decode line.data = some (json.Value.object members) ∧
    ∀ m ∈ members, json.equalFold json.fieldTag m.1 = false

/-- The `rrname` value of a line in the words of the spec: the line decodes, and
the object has a member with the key `rrname` holding a string (the last one if
there are several).  A line without such a member has no `rrname` value. -/
def statedName (line : String) : Option String :=
  match json.Unmarshal line with
  | none => none
  | some _ =>
    match json.decode line.data with
    | some (json.Value.object members) =>
      (members.filterMap (fun m =>
        match m.2 with
        | json.Value.string s => if m.1 = json.fieldTag then some (String.mk s) else none
        | _ => none)).getLast?
    | _ => none

/-- The distinct `rrname` values, in the words of the spec, among the lines of a
payload, that match the pattern. -/
def statedNames (re : regexp.Regexp) (page : String) : List String :=
  (((bufio.lines page).filterMap statedName).filter re.MatchString).dedup

/-! ## Concrete data used to exercise the model -/

/-- A configured service instance. -/
def exampleService : CIRCL :=
  { name := "CIRCL", API := some { Username := "user", Password := "secret" },
    SourceType := "api" }

/-- A pattern for `example.com`: the name ends in `.example.com`. -/
def examplePattern : regexp.Regexp :=
  { MatchString := fun s => (".example.com".data).isSuffixOf s.data }

/-- A pattern that matches every string, the empty one included. -/
def anyPattern : regexp.Regexp := { MatchString := fun _ => true }

/-- A configuration that knows the domain `example.com` only. -/
def exampleConfig : config.Config :=
  { DomainRegex := fun d => if d = "example.com" then some examplePattern else none }

/-- A configuration whose pattern for every domain matches every string. -/
def anyConfig : config.Config := { DomainRegex := fun _ => some anyPattern }

/-- A context that carries a configuration and the bus. -/
def contextOf (cfg : config.Config) : Context :=
  { ContextConfig := CtxValue.pointer (some cfg),
    ContextEventBus := CtxValue.pointer (some EventBus.theBus) }

/-- A request for a domain. -/
def requestFor (domain : String) : DNSRequest :=
  { Name := "", Domain := domain, Tag := "", Source := "" }

/-- Collaborators whose fetch gives the same answer to every call, and whose
`range` walks the set in insertion order. -/
def answering (r : Except String String) : World :=
  { RequestWebPage := fun _ => r, mapRange := fun l => l,
    mapRange_perm := fun l => List.Perm.refl l }

/-- The payload of the example of the spec. -/
def examplePage : String :=
  "\x7b\"rrname\":\"a.example.com\"\x7d\n\x7b\"rrname\":\"a.example.com\"\x7d\n\x7b\"rrname\":\"other.org\"\x7d\nnot-json"

/-- A line of 65536 bytes, one more than the scanner can hold, that does not
decode. -/
def longLine : List Char := List.replicate 65536 'x'

/-- The record used in the examples. -/
def exampleRecord : String := "\x7b\"rrname\":\"a.example.com\"\x7d"

/-- A payload whose first line is `longLine`, followed by a line that decodes. -/
def longPage : String :=
  String.mk (longLine ++ '\n' :: exampleRecord.data)

/-- A payload of one record whose only key is `Rrname`. -/
def titlePage : String := "\x7b\"Rrname\":\"a.example.com\"\x7d"

/-- A payload of two records, the second of which has no `rrname` member. -/
def mixedPage : String :=
  "\x7b\"rrname\":\"a.example.com\"\x7d\n\x7b\"other\":\"b.example.com\"\x7d"

/-- A payload of one record without any member. -/
def emptyRecordPage : String := "\x7b\x7d"

/-- A payload of one record whose key is `RRNAME`. -/
def upperPage : String := "\x7b\"RRNAME\":\"a.example.com\"\x7d"

/-- Whether an object member selects the field `rrname`. -/
def selectsName (m : List Char × json.Value) : Bool := json.equalFold json.fieldTag m.1

/-! ## The shape of an invocation that reaches the fetch -/

/-- The effects up to and including the fetch. -/
def CIRCL.before (c : CIRCL) (api : config.APIKey) (req : DNSRequest) : List Effect :=
  [ Effect.CheckRateLimit,
    Effect.Publish Topic.SetActiveTopic Priority.PriorityCritical (Payload.text c.String),
    Effect.Publish Topic.LogTopic Priority.PriorityHigh
      (Payload.text ("Querying " ++ c.String ++ " for " ++ req.Domain ++ " subdomains")),
    Effect.RequestWebPage (c.call api req.Domain) ]

theorem OnDNSRequest_error (c : CIRCL) (w : World) (ctx : Context) (req : DNSRequest)
    (api : config.APIKey) (cfg : config.Config) (bus : EventBus) (re : regexp.Regexp)
    (err : String)
    (hapi : c.API = some api) (hu : api.Username ≠ "") (hp : api.Password ≠ "")
    (hcfg : ctx.ContextConfig = CtxValue.pointer (some cfg))
    (hbus : ctx.ContextEventBus = CtxValue.pointer (some bus))
    (hre : cfg.DomainRegex req.Domain = some re)
    (herr : w.RequestWebPage (c.call api req.Domain) = Except.error err) :
    c.OnDNSRequest w ctx req =
      { effects := c.before api req ++
          [ Effect.Publish Topic.LogTopic Priority.PriorityHigh
              (Payload.text (c.String ++ ": " ++ c.restURL req.Domain ++ ": " ++ err)) ],
        panicked := false } := by
  simp [CIRCL.OnDNSRequest, CIRCL.before, hapi, hu, hp, hcfg, hbus, hre, herr]

theorem OnDNSRequest_ok (c : CIRCL) (w : World) (ctx : Context) (req : DNSRequest)
    (api : config.APIKey) (cfg : config.Config) (bus : EventBus) (re : regexp.Regexp)
    (page : String)
    (hapi : c.API = some api) (hu : api.Username ≠ "") (hp : api.Password ≠ "")
    (hcfg : ctx.ContextConfig = CtxValue.pointer (some cfg))
    (hbus : ctx.ContextEventBus = CtxValue.pointer (some bus))
    (hre : cfg.DomainRegex req.Domain = some re)
    (hok : w.RequestWebPage (c.call api req.Domain) = Except.ok page) :
    c.OnDNSRequest w ctx req =
      { effects := c.before api req ++
          [ Effect.Publish Topic.SetActiveTopic Priority.PriorityCritical
              (Payload.text c.String) ] ++
          (w.mapRange (CIRCL.scanLoop re (bufio.Scan page) stringset.New).elems).map
            (c.newNameEvent req),
        panicked := false } := by
  simp [CIRCL.OnDNSRequest, CIRCL.before, hapi, hu, hp, hcfg, hbus, hre, hok]

theorem signals_append (xs ys : List Effect) : signals (xs ++ ys) = signals xs ++ signals ys := by
  induction xs with
  | nil => rfl
  | cons e es ih => cases e <;> simp [signals, ih]

theorem fetches_append (xs ys : List Effect) : fetches (xs ++ ys) = fetches xs ++ fetches ys := by
  induction xs with
  | nil => rfl
  | cons e es ih => cases e <;> simp [fetches, ih]

theorem fetches_newNameEvents (c : CIRCL) (req : DNSRequest) (names : List String) :
    fetches (names.map (c.newNameEvent req)) = [] := by
  induction names with
  | nil => rfl
  | cons n ns ih => simpa [fetches, CIRCL.newNameEvent] using ih

theorem filter_setActive_newNameEvents (c : CIRCL) (req : DNSRequest) (names : List String) :
    (names.map (c.newNameEvent req)).filter (onTopic Topic.SetActiveTopic) = [] := by
  induction names with
  | nil => rfl
  | cons n ns ih => simp [onTopic, CIRCL.newNameEvent]

/-! ## Claims on the order and the shape of the effects -/

/-- C4. With no API key, or an empty username, or an empty password,
`OnDNSRequest` returns at once, whatever the context, the domain and the
collaborators: it publishes no signal of any topic, does not call the rate limiter
and makes no fetch. -/
theorem C4_disabled_without_credentials (c : CIRCL) (w : World) (ctx : Context)
    (req : DNSRequest)
    (h : c.API = none ∨ ∃ api, c.API = some api ∧ (api.Username = "" ∨ api.Password = "")) :
    c.OnDNSRequest w ctx req = { effects := [], panicked := false } := by
  rcases h with h | ⟨api, h, hempty⟩
  · simp [CIRCL.OnDNSRequest, h]
  · simp [CIRCL.OnDNSRequest, h, hempty]

/-- C4 at a concrete input: a key with an empty password. -/
theorem C4_disabled_without_credentials_witness :
    ({ name := "CIRCL", API := some { Username := "user", Password := "" },
       SourceType := "api" } : CIRCL).OnDNSRequest
        (answering (Except.ok examplePage)) (contextOf exampleConfig)
        (requestFor "example.com") = { effects := [], panicked := false } :=
  C4_disabled_without_credentials _ _ _ _ (Or.inr ⟨_, rfl, Or.inr rfl⟩)

/-- C8. When the configuration of the context has no pattern for the requested
domain, `OnDNSRequest` has no effect at all, whatever the credentials: no signal
of any topic, no call of the rate limiter, no fetch.  It also returns normally as
soon as the context holds a bus pointer. -/
theorem C8_nil_pattern_no_effect (c : CIRCL) (w : World) (ctx : Context)
    (req : DNSRequest) (cfg : config.Config)
    (hcfg : ctx.ContextConfig = CtxValue.pointer (some cfg))
    (hre : cfg.DomainRegex req.Domain = none) :
    (c.OnDNSRequest w ctx req).effects = [] ∧
      (ctx.ContextEventBus ≠ CtxValue.absent →
        (c.OnDNSRequest w ctx req).panicked = false) := by
  unfold CIRCL.OnDNSRequest
  rw [hcfg]
  cases c.API with
  | none => simp
  | some api =>
    by_cases hempty : api.Username = "" ∨ api.Password = ""
    · simp [hempty]
    · cases hb : ctx.ContextEventBus with
      | absent => simp [hempty]
      | pointer b =>
        cases b with
        | none => simp [hempty]
        | some b => simp [hempty, hre]

/-- C8 at a concrete input: a domain the configuration has no pattern for. -/
theorem C8_nil_pattern_no_effect_witness :
    (exampleService.OnDNSRequest (answering (Except.ok examplePage))
        (contextOf exampleConfig) (requestFor "other.org")).effects = [] ∧
      ((contextOf exampleConfig).ContextEventBus ≠ CtxValue.absent →
        (exampleService.OnDNSRequest (answering (Except.ok examplePage))
          (contextOf exampleConfig) (requestFor "other.org")).panicked = false) :=
  C8_nil_pattern_no_effect exampleService _ (contextOf exampleConfig)
    (requestFor "other.org") exampleConfig rfl rfl

/-- C5. On an invocation with complete credentials and a pattern for the domain
(the context carrying the configuration and the bus) whose fetch returns an error,
the effects are the rate-limiter call, SetActive, the Log of the query, the fetch,
and one Log of priority high describing the error, and nothing else: the signals
are exactly SetActive, Log (query start), Log (error), in that order, with no
NewName event and no second SetActive. -/
theorem C5_transport_error_aborts (c : CIRCL) (w : World) (ctx : Context)
    (req : DNSRequest) (api : config.APIKey) (cfg : config.Config) (b : EventBus)
    (re : regexp.Regexp) (err : String)
    (hapi : c.API = some api) (hu : api.Username ≠ "") (hp : api.Password ≠ "")
    (hcfg : ctx.ContextConfig = CtxValue.pointer (some cfg))
    (hbus : ctx.ContextEventBus = CtxValue.pointer (some b))
    (hre : cfg.DomainRegex req.Domain = some re)
    (herr : w.RequestWebPage (c.call api req.Domain) = Except.error err) :
    signals (c.OnDNSRequest w ctx req).effects =
        [ (Topic.SetActiveTopic, Priority.PriorityCritical, Payload.text c.String),
          (Topic.LogTopic, Priority.PriorityHigh,
            Payload.text ("Querying " ++ c.String ++ " for " ++ req.Domain ++ " subdomains")),
          (Topic.LogTopic, Priority.PriorityHigh,
            Payload.text (c.String ++ ": " ++ c.restURL req.Domain ++ ": " ++ err)) ] ∧
      (c.OnDNSRequest w ctx req).effects.getLast? =
        some (Effect.Publish Topic.LogTopic Priority.PriorityHigh
          (Payload.text (c.String ++ ": " ++ c.restURL req.Domain ++ ": " ++ err))) ∧
      (c.OnDNSRequest w ctx req).panicked = false := by
  rw [OnDNSRequest_error c w ctx req api cfg b re err hapi hu hp hcfg hbus hre herr]
  simp [CIRCL.before, signals]

/-- C5 at a concrete input: the fetch fails with the error `timeout`. -/
theorem C5_transport_error_aborts_witness :
    signals (exampleService.OnDNSRequest (answering (Except.error "timeout"))
        (contextOf exampleConfig) (requestFor "example.com")).effects =
        [ (Topic.SetActiveTopic, Priority.PriorityCritical, Payload.text "CIRCL"),
          (Topic.LogTopic, Priority.PriorityHigh,
            Payload.text "Querying CIRCL for example.com subdomains"),
          (Topic.LogTopic, Priority.PriorityHigh,
            Payload.text "CIRCL: https://www.circl.lu/pdns/query/example.com: timeout") ] ∧
      (exampleService.OnDNSRequest (answering (Except.error "timeout"))
        (contextOf exampleConfig) (requestFor "example.com")).effects.getLast? =
        some (Effect.Publish Topic.LogTopic Priority.PriorityHigh
          (Payload.text "CIRCL: https://www.circl.lu/pdns/query/example.com: timeout")) ∧
      (exampleService.OnDNSRequest (answering (Except.error "timeout"))
        (contextOf exampleConfig) (requestFor "example.com")).panicked = false :=
  C5_transport_error_aborts exampleService (answering (Except.error "timeout"))
    (contextOf exampleConfig) (requestFor "example.com")
    { Username := "user", Password := "secret" } exampleConfig EventBus.theBus
    examplePattern "timeout" rfl (by decide) (by decide) rfl rfl rfl rfl

/-- C6. On an invocation with complete credentials and a pattern for the domain
(the context carrying the configuration and the bus) whose fetch succeeds,
SetActive is published exactly twice, each time with priority critical and the
name of the service as payload: once before the fetch, and once right after it,
everything published later being a NewName event. -/
theorem C6_two_SetActive_signals (c : CIRCL) (w : World) (ctx : Context)
    (req : DNSRequest) (api : config.APIKey) (cfg : config.Config) (b : EventBus)
    (re : regexp.Regexp) (page : String)
    (hapi : c.API = some api) (hu : api.Username ≠ "") (hp : api.Password ≠ "")
    (hcfg : ctx.ContextConfig = CtxValue.pointer (some cfg))
    (hbus : ctx.ContextEventBus = CtxValue.pointer (some b))
    (hre : cfg.DomainRegex req.Domain = some re)
    (hok : w.RequestWebPage (c.call api req.Domain) = Except.ok page) :
    (c.OnDNSRequest w ctx req).effects.filter (onTopic Topic.SetActiveTopic) =
        [ Effect.Publish Topic.SetActiveTopic Priority.PriorityCritical (Payload.text c.String),
          Effect.Publish Topic.SetActiveTopic Priority.PriorityCritical (Payload.text c.String) ] ∧
      ∃ names : List String,
        (c.OnDNSRequest w ctx req).effects =
          [ Effect.CheckRateLimit,
            Effect.Publish Topic.SetActiveTopic Priority.PriorityCritical (Payload.text c.String),
            Effect.Publish Topic.LogTopic Priority.PriorityHigh
              (Payload.text ("Querying " ++ c.String ++ " for " ++ req.Domain ++ " subdomains")),
            Effect.RequestWebPage (c.call api req.Domain),
            Effect.Publish Topic.SetActiveTopic Priority.PriorityCritical (Payload.text c.String) ]
          ++ names.map (fun name =>
              Effect.Publish Topic.NewNameTopic Priority.PriorityHigh
                (Payload.request { Name := name, Domain := req.Domain, Tag := c.SourceType,
                                   Source := c.String })) := by
  rw [OnDNSRequest_ok c w ctx req api cfg b re page hapi hu hp hcfg hbus hre hok]
  refine ⟨?_, w.mapRange (CIRCL.scanLoop re (bufio.Scan page) stringset.New).elems, ?_⟩
  · rw [List.filter_append, filter_setActive_newNameEvents]
    simp [CIRCL.before, onTopic]
  · simp [CIRCL.before, CIRCL.newNameEvent]

/-- C6 at a concrete input: the example of the spec. -/
theorem C6_two_SetActive_signals_witness :
    (exampleService.OnDNSRequest (answering (Except.ok examplePage))
        (contextOf exampleConfig) (requestFor "example.com")).effects.filter
          (onTopic Topic.SetActiveTopic) =
        [ Effect.Publish Topic.SetActiveTopic Priority.PriorityCritical (Payload.text "CIRCL"),
          Effect.Publish Topic.SetActiveTopic Priority.PriorityCritical (Payload.text "CIRCL") ] :=
  (C6_two_SetActive_signals exampleService (answering (Except.ok examplePage))
    (contextOf exampleConfig) (requestFor "example.com")
    { Username := "user", Password := "secret" } exampleConfig EventBus.theBus
    examplePattern examplePage rfl (by decide) (by decide) rfl rfl rfl rfl).1

/-- C7. For every domain, an invocation with complete credentials and a pattern
for the domain (the context carrying the configuration and the bus) makes exactly
one fetch, whatever its result: the URL is `https://www.circl.lu/pdns/query/`
followed by the domain unchanged, which is `restURL` of the domain, there is no
body, the only header is `Content-Type: application/json`, and the user name and
the password are those of the API key. -/
theorem C7_request_wire_format (c : CIRCL) (w : World) (ctx : Context)
    (req : DNSRequest) (api : config.APIKey) (cfg : config.Config) (b : EventBus)
    (re : regexp.Regexp)
    (hapi : c.API = some api) (hu : api.Username ≠ "") (hp : api.Password ≠ "")
    (hcfg : ctx.ContextConfig = CtxValue.pointer (some cfg))
    (hbus : ctx.ContextEventBus = CtxValue.pointer (some b))
    (hre : cfg.DomainRegex req.Domain = some re) :
    fetches (c.OnDNSRequest w ctx req).effects =
        [ { url := "https://www.circl.lu/pdns/query/" ++ req.Domain, body := none,
            headers := [("Content-Type", "application/json")],
            uname := api.Username, passwd := api.Password } ] ∧
      c.restURL req.Domain = "https://www.circl.lu/pdns/query/" ++ req.Domain := by
  refine ⟨?_, rfl⟩
  cases hres : w.RequestWebPage (c.call api req.Domain) with
  | error err =>
    rw [OnDNSRequest_error c w ctx req api cfg b re err hapi hu hp hcfg hbus hre hres]
    simp [CIRCL.before, fetches, CIRCL.call, CIRCL.restURL]
  | ok page =>
    rw [OnDNSRequest_ok c w ctx req api cfg b re page hapi hu hp hcfg hbus hre hres]
    rw [fetches_append, fetches_newNameEvents]
    simp [CIRCL.before, fetches, CIRCL.call, CIRCL.restURL]

/-- C7 at a concrete input: the domain `example.com`. -/
theorem C7_request_wire_format_witness :
    fetches (exampleService.OnDNSRequest (answering (Except.ok examplePage))
        (contextOf exampleConfig) (requestFor "example.com")).effects =
        [ { url := "https://www.circl.lu/pdns/query/" ++ "example.com", body := none,
            headers := [("Content-Type", "application/json")],
            uname := "user", passwd := "secret" } ] ∧
      exampleService.restURL "example.com" =
        "https://www.circl.lu/pdns/query/" ++ "example.com" :=
  C7_request_wire_format exampleService (answering (Except.ok examplePage))
    (contextOf exampleConfig) (requestFor "example.com")
    { Username := "user", Password := "secret" } exampleConfig EventBus.theBus
    examplePattern rfl (by decide) (by decide) rfl rfl rfl

/-- C9, as the code has it.  On every invocation with complete credentials and a
pattern for the domain (the context carrying the configuration and the bus), the
first four effects are, in this order: the call of the rate limiter
(`CheckRateLimit`), the SetActive signal, the Log signal, the fetch. -/
theorem C9_rate_limit_comes_first (c : CIRCL) (w : World) (ctx : Context)
    (req : DNSRequest) (api : config.APIKey) (cfg : config.Config) (b : EventBus)
    (re : regexp.Regexp)
    (hapi : c.API = some api) (hu : api.Username ≠ "") (hp : api.Password ≠ "")
    (hcfg : ctx.ContextConfig = CtxValue.pointer (some cfg))
    (hbus : ctx.ContextEventBus = CtxValue.pointer (some b))
    (hre : cfg.DomainRegex req.Domain = some re) :
    (c.OnDNSRequest w ctx req).effects.take 4 =
      [ Effect.CheckRateLimit,
        Effect.Publish Topic.SetActiveTopic Priority.PriorityCritical (Payload.text c.String),
        Effect.Publish Topic.LogTopic Priority.PriorityHigh
          (Payload.text ("Querying " ++ c.String ++ " for " ++ req.Domain ++ " subdomains")),
        Effect.RequestWebPage
          { url := "https://www.circl.lu/pdns/query/" ++ req.Domain, body := none,
            headers := [("Content-Type", "application/json")],
            uname := api.Username, passwd := api.Password } ] := by
  cases hres : w.RequestWebPage (c.call api req.Domain) with
  | error err =>
    rw [OnDNSRequest_error c w ctx req api cfg b re err hapi hu hp hcfg hbus hre hres]
    simp [CIRCL.before, CIRCL.call, CIRCL.restURL]
  | ok page =>
    rw [OnDNSRequest_ok c w ctx req api cfg b re page hapi hu hp hcfg hbus hre hres]
    simp [CIRCL.before, CIRCL.call, CIRCL.restURL]

/-- C9 at a concrete input: a fetch that fails. -/
theorem C9_rate_limit_comes_first_witness :
    (exampleService.OnDNSRequest (answering (Except.error "timeout"))
        (contextOf exampleConfig) (requestFor "example.com")).effects.take 4 =
      [ Effect.CheckRateLimit,
        Effect.Publish Topic.SetActiveTopic Priority.PriorityCritical (Payload.text "CIRCL"),
        Effect.Publish Topic.LogTopic Priority.PriorityHigh
          (Payload.text "Querying CIRCL for example.com subdomains"),
        Effect.RequestWebPage
          { url := "https://www.circl.lu/pdns/query/example.com", body := none,
            headers := [("Content-Type", "application/json")],
            uname := "user", passwd := "secret" } ] :=
  C9_rate_limit_comes_first exampleService (answering (Except.error "timeout"))
    (contextOf exampleConfig) (requestFor "example.com")
    { Username := "user", Password := "secret" } exampleConfig EventBus.theBus
    examplePattern rfl (by decide) (by decide) rfl rfl rfl

/-- C9, as the spec words it, fails: on the example invocation the effects do not
start with SetActive, Log, `CheckRateLimit`, fetch; the rate limiter is called
before anything is published. -/
theorem C9_stated_order_fails :
    (exampleService.OnDNSRequest (answering (Except.ok examplePage))
        (contextOf exampleConfig) (requestFor "example.com")).effects.take 4 ≠
      [ Effect.Publish Topic.SetActiveTopic Priority.PriorityCritical (Payload.text "CIRCL"),
        Effect.Publish Topic.LogTopic Priority.PriorityHigh
          (Payload.text "Querying CIRCL for example.com subdomains"),
        Effect.CheckRateLimit,
        Effect.RequestWebPage
          { url := "https://www.circl.lu/pdns/query/example.com", body := none,
            headers := [("Content-Type", "application/json")],
            uname := "user", passwd := "secret" } ] := by
  decide

/-! ## The loop over the lines and the set of names -/

theorem Unmarshal_empty : json.Unmarshal "" = none := by rfl

theorem mem_Insert (u : stringset.Set) (v n : String) :
    n ∈ (u.Insert v).elems ↔ n ∈ u.elems ∨ n = v := by
  unfold stringset.Set.Insert
  by_cases h : v ∈ u.elems
  · simp only [h, if_true]
    constructor
    · exact Or.inl
    · rintro (h1 | h1)
      · exact h1
      · exact h1 ▸ h
  · simp [h]

theorem nodup_Insert (u : stringset.Set) (v : String) (h : u.elems.Nodup) :
    (u.Insert v).elems.Nodup := by
  unfold stringset.Set.Insert
  by_cases hv : v ∈ u.elems
  · simpa [hv] using h
  · simp only [hv, if_false]
    rw [List.nodup_append]
    refine ⟨h, List.nodup_singleton v, ?_⟩
    intro a ha hb
    rw [List.mem_singleton] at hb
    exact hv (hb ▸ ha)

theorem mem_scanLoop (re : regexp.Regexp) (ls : List String) :
    ∀ (u : stringset.Set) (n : String),
      n ∈ (CIRCL.scanLoop re ls u).elems ↔
        n ∈ u.elems ∨ ∃ l ∈ ls, json.Unmarshal l = some n ∧ re.MatchString n = true := by
  induction ls with
  | nil => intro u n; simp [CIRCL.scanLoop]
  | cons line rest ih =>
    intro u n
    unfold CIRCL.scanLoop
    by_cases hline : line = ""
    · subst hline
      simp [ih, Unmarshal_empty]
    · simp only [hline, if_false]
      cases hdec : json.Unmarshal line with
      | none => simp [ih, hdec]
      | some name =>
        by_cases hm : re.MatchString name = true
        · simp only [hm, if_true]
          rw [ih, mem_Insert]
          constructor
          · rintro ((h | h) | ⟨l, hl, h⟩)
            · exact Or.inl h
            · exact Or.inr ⟨line, List.mem_cons_self _ _, by rw [hdec, h], h ▸ hm⟩
            · exact Or.inr ⟨l, List.mem_cons_of_mem _ hl, h⟩
          · rintro (h | ⟨l, hl, h1, h2⟩)
            · exact Or.inl (Or.inl h)
            · rcases List.mem_cons.mp hl with rfl | hl
              · rw [hdec] at h1
                exact Or.inl (Or.inr (Option.some.inj h1).symm)
              · exact Or.inr ⟨l, hl, h1, h2⟩
        · simp only [hm, Bool.false_eq_true, if_false]
          rw [ih]
          constructor
          · rintro (h | ⟨l, hl, h⟩)
            · exact Or.inl h
            · exact Or.inr ⟨l, List.mem_cons_of_mem _ hl, h⟩
          · rintro (h | ⟨l, hl, h1, h2⟩)
            · exact Or.inl h
            · rcases List.mem_cons.mp hl with rfl | hl
              · rw [hdec] at h1
                exact absurd ((Option.some.inj h1) ▸ h2) hm
              · exact Or.inr ⟨l, hl, h1, h2⟩

theorem nodup_scanLoop (re : regexp.Regexp) (ls : List String) :
    ∀ u : stringset.Set, u.elems.Nodup → (CIRCL.scanLoop re ls u).elems.Nodup := by
  induction ls with
  | nil => intro u h; simpa [CIRCL.scanLoop] using h
  | cons line rest ih =>
    intro u h
    unfold CIRCL.scanLoop
    by_cases hline : line = ""
    · simpa [hline] using ih u h
    · simp only [hline, if_false]
      cases hdec : json.Unmarshal line with
      | none => simpa using ih u h
      | some name =>
        by_cases hm : re.MatchString name = true
        · simpa [hm] using ih _ (nodup_Insert u name h)
        · simpa [hm] using ih u h

theorem newNames_append (xs ys : List Effect) :
    newNames (xs ++ ys) = newNames xs ++ newNames ys := by
  induction xs with
  | nil => rfl
  | cons e es ih =>
    cases e with
    | CheckRateLimit => simpa [newNames] using ih
    | RequestWebPage call => simpa [newNames] using ih
    | Publish t p x =>
      cases t <;> cases x <;> simp [newNames, ih]

theorem newNames_newNameEvents (c : CIRCL) (req : DNSRequest) (names : List String) :
    newNames (names.map (c.newNameEvent req)) = names := by
  induction names with
  | nil => rfl
  | cons n ns ih => simp [newNames, CIRCL.newNameEvent] at ih ⊢; exact ih

theorem filter_newName_newNameEvents (c : CIRCL) (req : DNSRequest) (names : List String) :
    (names.map (c.newNameEvent req)).filter (onTopic Topic.NewNameTopic) =
      names.map (c.newNameEvent req) := by
  induction names with
  | nil => rfl
  | cons n ns ih => simp [onTopic, CIRCL.newNameEvent]

theorem scanTokens_of_fits (ls : List (List Char))
    (h : ∀ l ∈ ls, bufio.byteLen l < bufio.MaxScanTokenSize) :
    bufio.scanTokens ls = ls.map (fun l => String.mk (bufio.dropCR l)) := by
  induction ls with
  | nil => rfl
  | cons l rest ih =>
    have hl : bufio.fits l = true := by
      simpa [bufio.fits] using h l (List.mem_cons_self _ _)
    simp [bufio.scanTokens, hl, ih (fun x hx => h x (List.mem_cons_of_mem _ hx))]

theorem Scan_eq_lines (page : String)
    (h : ∀ l ∈ bufio.segments [] page.data, bufio.byteLen l < bufio.MaxScanTokenSize) :
    bufio.Scan page = bufio.lines page :=
  scanTokens_of_fits _ h

theorem mem_matchingNames (re : regexp.Regexp) (page n : String) :
    n ∈ matchingNames re page ↔
      ∃ l ∈ bufio.lines page, json.Unmarshal l = some n ∧ re.MatchString n = true := by
  simp only [matchingNames, List.mem_dedup, List.mem_filter, List.mem_filterMap]
  constructor
  · rintro ⟨⟨l, hl, h1⟩, h2⟩
    exact ⟨l, hl, h1, h2⟩
  · rintro ⟨l, hl, h1, h2⟩
    exact ⟨⟨l, hl, h1⟩, h2⟩


/-! ## A line that does not fit the buffer -/

theorem foldl_byteLen_replicate (n : Nat) :
    ∀ a : Nat, (List.replicate n 'x').foldl (fun n c => n + c.utf8Size) a = a + n := by
  induction n with
  | zero => intro a; rfl
  | succ k ih =>
    intro a
    rw [List.replicate_succ, List.foldl_cons, ih]
    have h : 'x'.utf8Size = 1 := by decide
    omega

theorem byteLen_replicate (n : Nat) : bufio.byteLen (List.replicate n 'x') = n := by
  simp [bufio.byteLen, foldl_byteLen_replicate]

theorem segments_replicate (n : Nat) :
    ∀ cur rest : List Char,
      bufio.segments cur (List.replicate n 'x' ++ rest) =
        bufio.segments (List.replicate n 'x' ++ cur) rest := by
  induction n with
  | zero => intro cur rest; rfl
  | succ k ih =>
    intro cur rest
    have h1 : List.replicate (k + 1) 'x' ++ rest = 'x' :: (List.replicate k 'x' ++ rest) := by
      rw [List.replicate_succ]; rfl
    have h2 : List.replicate (k + 1) 'x' ++ cur = List.replicate k 'x' ++ 'x' :: cur := by
      rw [List.replicate_succ']; simp
    rw [h1, h2, ← ih]
    simp [bufio.segments]

theorem segments_long_line (n : Nat) (rest : List Char) :
    bufio.segments [] (List.replicate n 'x' ++ '\n' :: rest) =
      List.replicate n 'x' :: bufio.segments [] rest := by
  rw [segments_replicate]
  simp [bufio.segments]

theorem dropCR_replicate (n : Nat) :
    bufio.dropCR (List.replicate n 'x') = List.replicate n 'x' := by
  unfold bufio.dropCR
  rw [List.getLast?_replicate]
  by_cases h : n = 0 <;> simp [h]

theorem Unmarshal_replicate (n : Nat) :
    json.Unmarshal (String.mk (List.replicate (n + 1) 'x')) = none := by
  rw [List.replicate_succ]
  rfl

theorem byteLen_longLine : bufio.byteLen longLine = 65536 := byteLen_replicate 65536

theorem Unmarshal_longLine : json.Unmarshal (String.mk longLine) = none :=
  Unmarshal_replicate 65535

theorem segments_longPage :
    bufio.segments [] longPage.data = [longLine, exampleRecord.data] := by
  have h : longPage.data = List.replicate 65536 'x' ++ '\n' :: exampleRecord.data := rfl
  rw [h, segments_long_line]
  rfl

theorem Scan_longPage : bufio.Scan longPage = [] := by
  unfold bufio.Scan
  rw [segments_longPage]
  simp [bufio.scanTokens, bufio.fits, byteLen_longLine, bufio.MaxScanTokenSize]

theorem lines_longPage : bufio.lines longPage = [String.mk longLine, exampleRecord] := by
  unfold bufio.lines
  rw [segments_longPage]
  have h1 : bufio.dropCR longLine = longLine := dropCR_replicate 65536
  have h2 : String.mk (bufio.dropCR exampleRecord.data) = exampleRecord := by decide
  simp [h1, h2]

theorem statedName_of_error (l : String) (h : json.Unmarshal l = none) :
    statedName l = none := by
  unfold statedName
  rw [h]

theorem statedNames_longPage : statedNames examplePattern longPage = ["a.example.com"] := by
  unfold statedNames
  rw [lines_longPage,
    List.filterMap_cons_none (statedName_of_error _ Unmarshal_longLine)]
  decide

theorem effects_longPage :
    (exampleService.OnDNSRequest (answering (Except.ok longPage))
      (contextOf exampleConfig) (requestFor "example.com")).effects =
      exampleService.before { Username := "user", Password := "secret" }
          (requestFor "example.com") ++
        [ Effect.Publish Topic.SetActiveTopic Priority.PriorityCritical
            (Payload.text "CIRCL") ] := by
  rw [OnDNSRequest_ok exampleService (answering (Except.ok longPage))
    (contextOf exampleConfig) (requestFor "example.com")
    { Username := "user", Password := "secret" } exampleConfig EventBus.theBus
    examplePattern longPage rfl (by decide) (by decide) rfl rfl rfl rfl]
  rw [Scan_longPage]
  rfl

/-! ## Claims on the names published -/

/-- C2. On every invocation, whatever the credentials, the context, the payload
and the order of iteration, every event published on `NewNameTopic` carries a
request whose name the pattern obtained for the domain of the request matches. -/
theorem C2_domain_filter (c : CIRCL) (w : World) (ctx : Context) (req : DNSRequest)
    (prio : Priority) (payload : Payload)
    (h : Effect.Publish Topic.NewNameTopic prio payload ∈
      (c.OnDNSRequest w ctx req).effects) :
    ∃ cfg re r, ctx.ContextConfig = CtxValue.pointer (some cfg) ∧
      cfg.DomainRegex req.Domain = some re ∧ payload = Payload.request r ∧
      re.MatchString r.Name = true := by
  cases hapi : c.API with
  | none => simp [CIRCL.OnDNSRequest, hapi] at h
  | some api =>
    by_cases hempty : api.Username = "" ∨ api.Password = ""
    · simp [CIRCL.OnDNSRequest, hapi, hempty] at h
    · have hu : api.Username ≠ "" := fun e => hempty (Or.inl e)
      have hp : api.Password ≠ "" := fun e => hempty (Or.inr e)
      cases hcfg : ctx.ContextConfig with
      | absent => simp [CIRCL.OnDNSRequest, hapi, hempty, hcfg] at h
      | pointer cfg =>
        cases hbus : ctx.ContextEventBus with
        | absent => simp [CIRCL.OnDNSRequest, hapi, hempty, hcfg, hbus] at h
        | pointer b =>
          cases cfg with
          | none => simp [CIRCL.OnDNSRequest, hapi, hempty, hcfg, hbus] at h
          | some cfg =>
            cases b with
            | none => simp [CIRCL.OnDNSRequest, hapi, hempty, hcfg, hbus] at h
            | some b =>
              cases hre : cfg.DomainRegex req.Domain with
              | none => simp [CIRCL.OnDNSRequest, hapi, hempty, hcfg, hbus, hre] at h
              | some re =>
                cases hres : w.RequestWebPage (c.call api req.Domain) with
                | error err =>
                  rw [OnDNSRequest_error c w ctx req api cfg b re err hapi hu hp hcfg hbus
                    hre hres] at h
                  simp [CIRCL.before] at h
                | ok page =>
                  rw [OnDNSRequest_ok c w ctx req api cfg b re page hapi hu hp hcfg hbus
                    hre hres] at h
                  simp only [List.mem_append, List.mem_map] at h
                  rcases h with (h | h) | ⟨name, hname, hev⟩
                  · simp [CIRCL.before] at h
                  · simp at h
                  · have hmem : name ∈ (CIRCL.scanLoop re (bufio.Scan page)
                        stringset.New).elems := (w.mapRange_perm _).mem_iff.mp hname
                    rw [mem_scanLoop] at hmem
                    rcases hmem with hmem | ⟨l, _, _, hmatch⟩
                    · simp [stringset.New] at hmem
                    · simp only [CIRCL.newNameEvent, Effect.Publish.injEq] at hev
                      exact ⟨cfg, re, _, rfl, hre, hev.2.2.symm, hmatch⟩

/-- C2 at a concrete input: the event published for the example of the spec. -/
theorem C2_domain_filter_witness :
    ∃ cfg re r, (contextOf exampleConfig).ContextConfig = CtxValue.pointer (some cfg) ∧
      cfg.DomainRegex (requestFor "example.com").Domain = some re ∧
      Payload.request { Name := "a.example.com", Domain := "example.com", Tag := "api",
                        Source := "CIRCL" } = Payload.request r ∧
      re.MatchString r.Name = true :=
  C2_domain_filter exampleService (answering (Except.ok examplePage))
    (contextOf exampleConfig) (requestFor "example.com") Priority.PriorityHigh
    (Payload.request { Name := "a.example.com", Domain := "example.com", Tag := "api",
                       Source := "CIRCL" })
    (by decide)

theorem perm_scanLoop_matchingNames (re : regexp.Regexp) (page : String)
    (hfit : ∀ l ∈ bufio.segments [] page.data, bufio.byteLen l < bufio.MaxScanTokenSize) :
    (CIRCL.scanLoop re (bufio.Scan page) stringset.New).elems.Perm
      (matchingNames re page) := by
  rw [List.perm_ext_iff_of_nodup
    (nodup_scanLoop re _ stringset.New (by simp [stringset.New]))
    (by unfold matchingNames; exact List.nodup_dedup _)]
  intro n
  rw [mem_scanLoop, mem_matchingNames, Scan_eq_lines page hfit]
  simp [stringset.New]

/-- C1, as the code has it.  On an invocation with complete credentials and a
pattern for the domain (the context carrying the configuration and the bus) whose
fetch succeeds, no two NewName events carry the same name.  When moreover all the
lines of the payload are shorter than 65536 bytes, the number of NewName events
published equals the number of distinct names, among the names that
`json.Unmarshal` decodes from the lines of the payload (for each line it decodes
without error, the value it leaves in `j.Name`), that match the pattern, and the
names published are exactly those names. -/
theorem C1_dedup_law (c : CIRCL) (w : World) (ctx : Context)
    (req : DNSRequest) (api : config.APIKey) (cfg : config.Config) (b : EventBus)
    (re : regexp.Regexp) (page : String)
    (hapi : c.API = some api) (hu : api.Username ≠ "") (hp : api.Password ≠ "")
    (hcfg : ctx.ContextConfig = CtxValue.pointer (some cfg))
    (hbus : ctx.ContextEventBus = CtxValue.pointer (some b))
    (hre : cfg.DomainRegex req.Domain = some re)
    (hok : w.RequestWebPage (c.call api req.Domain) = Except.ok page) :
    (newNames (c.OnDNSRequest w ctx req).effects).Nodup ∧
      ((∀ l ∈ bufio.segments [] page.data, bufio.byteLen l < bufio.MaxScanTokenSize) →
        ((c.OnDNSRequest w ctx req).effects.filter (onTopic Topic.NewNameTopic)).length =
            (matchingNames re page).length ∧
          (newNames (c.OnDNSRequest w ctx req).effects).Perm (matchingNames re page)) := by
  rw [OnDNSRequest_ok c w ctx req api cfg b re page hapi hu hp hcfg hbus hre hok]
  have hnames : newNames (c.before api req ++
      [ Effect.Publish Topic.SetActiveTopic Priority.PriorityCritical
          (Payload.text c.String) ] ++
      (w.mapRange (CIRCL.scanLoop re (bufio.Scan page) stringset.New).elems).map
        (c.newNameEvent req)) =
      w.mapRange (CIRCL.scanLoop re (bufio.Scan page) stringset.New).elems := by
    rw [newNames_append, newNames_newNameEvents]
    simp [CIRCL.before, newNames]
  refine ⟨?_, fun hfit => ?_⟩
  · rw [hnames]
    exact (w.mapRange_perm _).nodup_iff.mpr
      (nodup_scanLoop re _ stringset.New (by simp [stringset.New]))
  · have hperm :
        (w.mapRange (CIRCL.scanLoop re (bufio.Scan page) stringset.New).elems).Perm
          (matchingNames re page) :=
      (w.mapRange_perm _).trans (perm_scanLoop_matchingNames re page hfit)
    refine ⟨?_, ?_⟩
    · rw [List.filter_append, filter_newName_newNameEvents, List.length_append,
        List.length_map, hperm.length_eq]
      simp [CIRCL.before, onTopic]
    · rw [hnames]
      exact hperm

/-- C1 on the example of the spec: the payload of four lines, two of them the
record of `a.example.com`, one of another domain and one that does not decode,
gives one name, and the invocation publishes it once. -/
theorem C1_dedup_law_witness :
    matchingNames examplePattern examplePage = ["a.example.com"] ∧
      (newNames (exampleService.OnDNSRequest (answering (Except.ok examplePage))
          (contextOf exampleConfig) (requestFor "example.com")).effects).Nodup ∧
      ((exampleService.OnDNSRequest (answering (Except.ok examplePage))
          (contextOf exampleConfig) (requestFor "example.com")).effects.filter
            (onTopic Topic.NewNameTopic)).length =
        (matchingNames examplePattern examplePage).length ∧
      (newNames (exampleService.OnDNSRequest (answering (Except.ok examplePage))
          (contextOf exampleConfig) (requestFor "example.com")).effects).Perm
        (matchingNames examplePattern examplePage) :=
  have law := C1_dedup_law exampleService (answering (Except.ok examplePage))
    (contextOf exampleConfig) (requestFor "example.com")
    { Username := "user", Password := "secret" } exampleConfig EventBus.theBus
    examplePattern examplePage rfl (by decide) (by decide) rfl rfl rfl rfl
  ⟨by decide, law.1, law.2 (by decide)⟩

/-- C1, as the spec words it, fails in two ways.  With the pattern of
`example.com`, the record whose only key is `Rrname` holds no `rrname` value, so
the stated count is zero, yet the decoder takes the key for the field and one
NewName event is published.  And a line of 65536 bytes stops the scan, so that
the `rrname` value of the line after it is counted but not published. -/
theorem C1_stated_count_fails :
    (statedNames examplePattern titlePage = [] ∧
      newNames (exampleService.OnDNSRequest (answering (Except.ok titlePage))
          (contextOf exampleConfig) (requestFor "example.com")).effects =
        ["a.example.com"] ∧
      ((exampleService.OnDNSRequest (answering (Except.ok titlePage))
          (contextOf exampleConfig) (requestFor "example.com")).effects.filter
            (onTopic Topic.NewNameTopic)).length ≠
        (statedNames examplePattern titlePage).length) ∧
    (statedNames examplePattern longPage = ["a.example.com"] ∧
      ((exampleService.OnDNSRequest (answering (Except.ok longPage))
          (contextOf exampleConfig) (requestFor "example.com")).effects.filter
            (onTopic Topic.NewNameTopic)).length ≠
        (statedNames examplePattern longPage).length) := by
  refine ⟨⟨by decide, by decide, by decide⟩, statedNames_longPage, ?_⟩
  rw [effects_longPage, statedNames_longPage]
  decide

/-- C3 on the failing input: the second line of `longPage` is a line of the
payload, it decodes to `a.example.com`, the pattern matches that name, and yet
the invocation publishes no NewName event, because the first line, which is
65536 bytes long, ends the scan. -/
theorem C3_long_line_ends_the_scan :
    exampleRecord ∈ bufio.lines longPage ∧
      json.Unmarshal exampleRecord = some "a.example.com" ∧
      examplePattern.MatchString "a.example.com" = true ∧
      json.Unmarshal (String.mk longLine) = none ∧
      newNames (exampleService.OnDNSRequest (answering (Except.ok longPage))
        (contextOf exampleConfig) (requestFor "example.com")).effects = [] := by
  refine ⟨?_, by decide, by decide, Unmarshal_longLine, ?_⟩
  · rw [lines_longPage]
    simp
  · rw [effects_longPage]
    decide

/-! ## Records without a name -/

theorem foldl_storeMember_filter (ms : List (List Char × json.Value)) :
    ∀ t : json.Target,
      ms.foldl json.storeMember t = (ms.filter selectsName).foldl json.storeMember t := by
  induction ms with
  | nil => intro t; rfl
  | cons m rest ih =>
    intro t
    by_cases hm : selectsName m = true
    · rw [List.filter_cons_of_pos hm, List.foldl_cons, List.foldl_cons, ih]
    · rw [List.filter_cons_of_neg hm, List.foldl_cons, ih]
      have hskip : json.storeMember t m = t := by
        unfold json.storeMember
        unfold selectsName at hm
        simp [hm]
      rw [hskip]

theorem Unmarshal_of_object (line : String) (ms : List (List Char × json.Value))
    (h : json.decode line.data = some (json.Value.object ms)) :
    json.Unmarshal line =
      if ((ms.filter selectsName).foldl json.storeMember
            { Name := [], savedError := false }).savedError = true then none
      else some (String.mk ((ms.filter selectsName).foldl json.storeMember
            { Name := [], savedError := false }).Name) := by
  unfold json.Unmarshal
  rw [h]
  simp only [foldl_storeMember_filter ms]

theorem Unmarshal_of_lacksName (line : String) (h : lacksName line) :
    json.Unmarshal line = some "" := by
  obtain ⟨ms, hdec, hkeys⟩ := h
  have hnone : ms.filter selectsName = [] := by
    rw [List.filter_eq_nil_iff]
    intro m hm
    simp [selectsName, hkeys m hm]
  rw [Unmarshal_of_object line ms hdec, hnone]
  rfl

theorem newNames_of_ok (c : CIRCL) (w : World) (ctx : Context) (req : DNSRequest)
    (api : config.APIKey) (cfg : config.Config) (b : EventBus) (re : regexp.Regexp)
    (page : String)
    (hapi : c.API = some api) (hu : api.Username ≠ "") (hp : api.Password ≠ "")
    (hcfg : ctx.ContextConfig = CtxValue.pointer (some cfg))
    (hbus : ctx.ContextEventBus = CtxValue.pointer (some b))
    (hre : cfg.DomainRegex req.Domain = some re)
    (hok : w.RequestWebPage (c.call api req.Domain) = Except.ok page) :
    newNames (c.OnDNSRequest w ctx req).effects =
      w.mapRange (CIRCL.scanLoop re (bufio.Scan page) stringset.New).elems := by
  rw [OnDNSRequest_ok c w ctx req api cfg b re page hapi hu hp hcfg hbus hre hok,
    newNames_append, newNames_newNameEvents]
  simp [CIRCL.before, newNames]

/-- C10, as the code has it.  A line that is a well-formed JSON object with no key
equal to `rrname` up to the case of letters is not a decode error: it decodes to
the empty name.  On an invocation that reaches a successful fetch, with a payload
whose lines are shorter than 65536 bytes and a pattern that does not match the
empty name, such a line yields no NewName event and the names published are
exactly the names of the other lines that decode and match.  The members of a
record whose key differs from `rrname` (up to case) do not change what the line
decodes to. -/
theorem C10_record_without_name (c : CIRCL) (w : World) (ctx : Context)
    (req : DNSRequest) (api : config.APIKey) (cfg : config.Config) (b : EventBus)
    (re : regexp.Regexp) (page : String)
    (hapi : c.API = some api) (hu : api.Username ≠ "") (hp : api.Password ≠ "")
    (hcfg : ctx.ContextConfig = CtxValue.pointer (some cfg))
    (hbus : ctx.ContextEventBus = CtxValue.pointer (some b))
    (hre : cfg.DomainRegex req.Domain = some re)
    (hok : w.RequestWebPage (c.call api req.Domain) = Except.ok page)
    (hfit : ∀ l ∈ bufio.segments [] page.data, bufio.byteLen l < bufio.MaxScanTokenSize)
    (hempty : re.MatchString "" = false) :
    (∀ line, lacksName line → json.Unmarshal line = some "") ∧
      (∀ n, n ∈ newNames (c.OnDNSRequest w ctx req).effects ↔
        ∃ l ∈ bufio.lines page, ¬ lacksName l ∧ json.Unmarshal l = some n ∧
          re.MatchString n = true) ∧
      (∀ (l1 l2 : String) (m1 m2 : List (List Char × json.Value)),
        json.decode l1.data = some (json.Value.object m1) →
        json.decode l2.data = some (json.Value.object m2) →
        m1.filter selectsName = m2.filter selectsName →
        json.Unmarshal l1 = json.Unmarshal l2) := by
  refine ⟨Unmarshal_of_lacksName, ?_, ?_⟩
  · intro n
    rw [newNames_of_ok c w ctx req api cfg b re page hapi hu hp hcfg hbus hre hok,
      (w.mapRange_perm _).mem_iff, mem_scanLoop, Scan_eq_lines page hfit]
    constructor
    · rintro (h | ⟨l, hl, hdec, hmatch⟩)
      · simp [stringset.New] at h
      · refine ⟨l, hl, ?_, hdec, hmatch⟩
        intro hlack
        rw [Unmarshal_of_lacksName l hlack] at hdec
        rw [← Option.some.inj hdec, hempty] at hmatch
        cases hmatch
    · rintro ⟨l, hl, _, hdec, hmatch⟩
      exact Or.inr ⟨l, hl, hdec, hmatch⟩
  · intro l1 l2 m1 m2 h1 h2 hsame
    rw [Unmarshal_of_object l1 m1 h1, Unmarshal_of_object l2 m2 h2, hsame]

/-- C10 at a concrete input: two records, the second without a name. -/
theorem C10_record_without_name_witness :
    examplePattern.MatchString "" = false ∧
      ("a.example.com" ∈ newNames (exampleService.OnDNSRequest
          (answering (Except.ok mixedPage)) (contextOf exampleConfig)
          (requestFor "example.com")).effects ↔
        ∃ l ∈ bufio.lines mixedPage, ¬ lacksName l ∧
          json.Unmarshal l = some "a.example.com" ∧
          examplePattern.MatchString "a.example.com" = true) :=
  ⟨by decide,
    (C10_record_without_name exampleService (answering (Except.ok mixedPage))
      (contextOf exampleConfig) (requestFor "example.com")
      { Username := "user", Password := "secret" } exampleConfig EventBus.theBus
      examplePattern mixedPage rfl (by decide) (by decide) rfl rfl rfl rfl (by decide)
      (by decide)).2.1 "a.example.com"⟩

/-- C10, as the spec words it, fails.  The record without any member is a
well-formed object without an `rrname` field; it is not a decode error but
decodes to the empty name, and a NewName event with the empty name is published
when the pattern matches the empty name.  The record whose only key is `RRNAME`
has no member named `rrname` either, and its value is published. -/
theorem C10_nameless_record_is_published :
    (json.decode emptyRecordPage.data = some (json.Value.object []) ∧
      json.Unmarshal emptyRecordPage = some "" ∧
      newNames (exampleService.OnDNSRequest (answering (Except.ok emptyRecordPage))
        (contextOf anyConfig) (requestFor "example.com")).effects = [""]) ∧
    (json.decode upperPage.data =
        some (json.Value.object
          [("RRNAME".data, json.Value.string "a.example.com".data)]) ∧
      statedName upperPage = none ∧
      newNames (exampleService.OnDNSRequest (answering (Except.ok upperPage))
        (contextOf exampleConfig) (requestFor "example.com")).effects =
          ["a.example.com"]) := by
  refine ⟨⟨rfl, by decide, by decide⟩, ⟨rfl, by decide, by decide⟩⟩

end Amass
